import Mathlib

/-!
Verification development for the destination read path of the travel-backend
repository: the caching and indexing layer in `app/routes/destinations.py`,
embedded shallowly.  Python data is modelled as follows: strings are `String`
manipulated through structural `List Char` operations (`str.lower`,
`re.findall(r'\w+', s)`, the `in` substring test and lexicographic comparison
are reimplemented on the character list so that everything evaluates), UUIDs
are `Nat`, `time.time()` / `os.path.getmtime` values are `Nat` snapshots passed
in explicitly, floats arising from the hit-rate computation are `ℚ`, and
raised `HTTPException`s are explicit error results.  Python's stable in-place
`list.sort(key=lambda x: x.name)` is modelled by a stable insertion sort, and
a Python `set` of positions is materialised in increasing order (sets of small
ints iterate in that order, and every property proved below is insensitive to
the iteration order).
-/

namespace TravelBackend

/-- `PriceRange` enumeration from `app/models/destination.py`. -/
inductive PriceRange where
  | budget
  | moderate
  | luxury
  | ultra_luxury
deriving DecidableEq

/-- `Destination` model from `app/models/destination.py`; `destination_id`
models the UUID. -/
structure Destination where
  destination_id : Nat
  name : String
  location : String
  description : String
  price_range : PriceRange
  availability : Bool
deriving DecidableEq

/-- Placeholder destination used as the default of positional `getD` lookups;
every lookup position proved about below is in bounds. -/
def dflt : Destination :=
  { destination_id := 0, name := "", location := "", description := ""
    price_range := PriceRange.budget, availability := true }

/-- `str.lower()` on the character list (ASCII case folding, as in the data
this service stores). -/
def lowerStr (s : String) : String :=
  String.mk (s.data.map Char.toLower)

/-- A word character in the sense of `re.findall(r'\w+', ...)`. -/
def isWordChar (c : Char) : Bool :=
  c.isAlphanum || c = '_'

/-- Helper of `pyTokens`: scans the character list, `cur` holds the reversed
current run of word characters. -/
def tokensAux : List Char → List Char → List (List Char)
  | [], [] => []
  | [], cur => [cur.reverse]
  | c :: rest, cur =>
    if isWordChar c then tokensAux rest (c :: cur)
    else if cur.isEmpty then tokensAux rest []
    else cur.reverse :: tokensAux rest []

/-- `re.findall(r'\w+', s)`: the maximal runs of word characters of `s`. -/
def pyTokens (s : String) : List String :=
  (tokensAux s.data []).map String.mk

/-- The tokens the index layer extracts from a name or a name filter:
`re.findall(r'\w+', s.lower())` keeping only tokens of length `> 2`
(lines 57-58 and 149-150 of `destinations.py`). -/
def longTokens (s : String) : List String :=
  (pyTokens (lowerStr s)).filter (fun t => 2 < t.length)

/-- Whether `needle` is a prefix of `hay` (character lists). -/
def startsWithL : List Char → List Char → Bool
  | [], _ => true
  | _ :: _, [] => false
  | c :: cs, d :: ds => c = d && startsWithL cs ds

/-- Whether `needle` occurs contiguously in `hay`: Python's `needle in hay`
on strings. -/
def containsSubL (needle : List Char) : List Char → Bool
  | [] => startsWithL needle []
  | c :: t => startsWithL needle (c :: t) || containsSubL needle t

/-- Python's substring test `needle in hay`. -/
def substrB (needle hay : String) : Bool :=
  containsSubL needle.data hay.data

/-- Lexicographic code-point comparison of character lists: Python's `<=` on
strings. -/
def charListLe : List Char → List Char → Bool
  | [], _ => true
  | _ :: _, [] => false
  | c :: cs, d :: ds => if c = d then charListLe cs ds else decide (c < d)

/-- Python's `<=` on strings. -/
def strLeB (a b : String) : Bool :=
  charListLe a.data b.data

/-- Insert a destination into a name-sorted list, before the first entry it
does not strictly follow: together with `sortByName` this is a stable
insertion sort, the behaviour of `list.sort(key=lambda x: x.name)`. -/
def insertByName (d : Destination) : List Destination → List Destination
  | [] => [d]
  | e :: t => if strLeB d.name e.name then d :: e :: t else e :: insertByName d t

/-- Stable sort by `name` ascending, modelling line 170 of `destinations.py`. -/
def sortByName : List Destination → List Destination
  | [] => []
  | d :: t => insertByName d (sortByName t)

/-- The four inverted indexes of `IndexedCache` (lines 42-45).  Each Python
`defaultdict(list)` is a total function returning `[]` on absent keys, which
is exactly the `dict.get(key, [])` read discipline the queries use. -/
structure IndexSet where
  name_index : String → List Nat
  location_index : String → List Nat
  price_range_index : PriceRange → List Nat
  availability_index : Bool → List Nat

/-- Freshly cleared indexes. -/
def emptyIndexSet : IndexSet :=
  { name_index := fun _ => []
    location_index := fun _ => []
    price_range_index := fun _ => []
    availability_index := fun _ => [] }

/-- `m[k].append(i)` on a dict-of-lists. -/
def appendAt {κ : Type} [DecidableEq κ] (m : κ → List Nat) (k : κ) (i : Nat) :
    κ → List Nat :=
  fun k' => if k' = k then m k' ++ [i] else m k'

/-- The inner loop of `build_indexes`: append position `i` under every token
in `ws` (one append per occurrence, as `re.findall` can repeat a token). -/
def insertTokens (m : String → List Nat) (ws : List String) (i : Nat) :
    String → List Nat :=
  ws.foldl (fun acc w => appendAt acc w i) m

/-- One iteration of the `for i, destination in enumerate(self.data)` loop of
`build_indexes` (lines 56-62). -/
def insertRecord (m : IndexSet) (i : Nat) (d : Destination) : IndexSet :=
  { name_index := insertTokens m.name_index (longTokens d.name) i
    location_index := appendAt m.location_index (lowerStr d.location) i
    price_range_index := appendAt m.price_range_index d.price_range i
    availability_index := appendAt m.availability_index d.availability i }

/-- The `build_indexes` loop starting at position `i`. -/
def buildFrom : Nat → List Destination → IndexSet → IndexSet
  | _, [], m => m
  | i, d :: rest, m => buildFrom (i + 1) rest (insertRecord m i d)

/-- The index set derived from a record sequence: the loop of `build_indexes`
run over cleared indexes. -/
def buildIndexSet (ds : List Destination) : IndexSet :=
  buildFrom 0 ds emptyIndexSet

/-- The module-level `IndexedCache` state (lines 31-45): snapshot, staleness
metadata, counters and the index set. -/
structure CacheState where
  data : Option (List Destination)
  last_refresh_time : Nat
  is_refreshing : Bool
  last_modified_time : Nat
  access_count : Nat
  hit_count : Nat
  miss_count : Nat
  idx : IndexSet

/-- `CACHE_TTL = 60` (line 28). -/
def CACHE_TTL : Nat := 60

/-- The cache as constructed at import time: no snapshot, zeroed metadata and
counters, empty indexes. -/
def initialCache : CacheState :=
  { data := none, last_refresh_time := 0, is_refreshing := false
    last_modified_time := 0, access_count := 0, hit_count := 0
    miss_count := 0, idx := emptyIndexSet }

/-- The index set `build_indexes` (lines 47-62) leaves in place: `if not
self.data: return` skips the clearing and the rebuild whenever the snapshot is
`None` or the empty list, so in those cases the previous indexes survive. -/
def rebuiltIdx (s : CacheState) : IndexSet :=
  match s.data with
  | some (d :: tl) => buildIndexSet (d :: tl)
  | _ => s.idx

/-- `IndexedCache.build_indexes` as a state transition: only the four index
mappings change, and only when the snapshot is a non-empty list. -/
def build_indexes (s : CacheState) : CacheState :=
  { s with idx := rebuiltIdx s }

/-- `is_cache_valid` (lines 66-74).  `now` is the `time.time()` reading,
`fileGone = true` models `os.path.exists(DATA_FILE)` being false, and
`fileMtime` the current `os.path.getmtime(DATA_FILE)` reading. -/
def is_cache_valid (s : CacheState) (now : Nat) (fileGone : Bool)
    (fileMtime : Nat) : Bool :=
  if CACHE_TTL < now - s.last_refresh_time then false
  else if !fileGone && decide (s.last_modified_time < fileMtime) then false
  else s.data.isSome

/-- The dictionary returned by `get_cache_stats` (lines 76-85); the float hit
rate is modelled in `ℚ` and the isoformat timestamp by the raw timestamp. -/
structure CacheStats where
  access_count : Nat
  hit_count : Nat
  miss_count : Nat
  hit_rate_percentage : ℚ
  last_refresh : Option Nat
  age_seconds : Option Nat

/-- `get_cache_stats` (lines 76-85): the hit rate is
`(hit_count / access_count) * 100 if access_count else 0`. -/
def get_cache_stats (s : CacheState) (now : Nat) : CacheStats :=
  { access_count := s.access_count
    hit_count := s.hit_count
    miss_count := s.miss_count
    hit_rate_percentage :=
      if s.access_count = 0 then 0
      else ((s.hit_count : ℚ) / (s.access_count : ℚ)) * 100
    last_refresh :=
      if 0 < s.last_refresh_time then some s.last_refresh_time else none
    age_seconds :=
      if 0 < s.last_refresh_time then some (now - s.last_refresh_time) else none }

/-- `invalidate_cache` (lines 115-118). -/
def invalidate_cache (s : CacheState) : CacheState :=
  { s with data := none, last_refresh_time := 0, last_modified_time := 0 }

/-- Result of one `refresh_cache` call: the state it leaves behind, the
`HTTPException` detail it raises (if any), and whether the guarded rebuild
body actually ran (false when the `is_refreshing` early return coalesced the
call into a no-op). -/
structure RefreshResult where
  state : CacheState
  err : Option String
  performed : Bool

/-- `refresh_cache` (lines 91-113).  `readResult` models reading and parsing
`DATA_FILE` (`Except.error` is any exception out of `open`/`json.load`/model
validation); when the file is absent the code creates it empty and uses `[]`.
On failure the snapshot is discarded (`data = None`) and the exception
carries `"Failed to read destinations: " ++ e`; the `finally` block clears
`is_refreshing` on every path that set it. -/
def refresh_cache (s : CacheState) (fileGone : Bool)
    (readResult : Except String (List Destination)) (now fileMtime : Nat) :
    RefreshResult :=
  if s.is_refreshing then ⟨s, none, false⟩
  else
    match fileGone, readResult with
    | true, _ =>
      let s1 := build_indexes { s with is_refreshing := true, data := some [] }
      ⟨{ s1 with last_refresh_time := now, last_modified_time := fileMtime
                 is_refreshing := false }, none, true⟩
    | false, Except.ok ds =>
      let s1 := build_indexes { s with is_refreshing := true, data := some ds }
      ⟨{ s1 with last_refresh_time := now, last_modified_time := fileMtime
                 is_refreshing := false }, none, true⟩
    | false, Except.error e =>
      ⟨{ s with data := none, is_refreshing := false },
       some ("Failed to read destinations: " ++ e), true⟩

/-- Query parameters of `read_destinations` (lines 120-128); `skip = 0`,
`limit = 100` and all-`none` filters are the Python defaults. -/
structure QueryParams where
  skip : Nat
  limit : Nat
  name_filter : Option String
  location_filter : Option String
  price_range_filter : Option PriceRange
  availability_filter : Option Bool

/-- The defaulted parameters used by every caller that passes none
explicitly (`get_destination`, `create_destination`, `update_destination`,
`delete_destination`). -/
def defaultQuery : QueryParams :=
  { skip := 0, limit := 100, name_filter := none, location_filter := none
    price_range_filter := none, availability_filter := none }

/-- Membership in `name_matches` (lines 148-153): union the `name_index`
buckets of the long tokens of the filter; if that union is empty, fall back to
a case-insensitive substring scan over all names. -/
def nameMatchSet (ds : List Destination) (idx : IndexSet) (f : String)
    (i : Nat) : Bool :=
  let u := (longTokens f).flatMap idx.name_index
  if u.isEmpty then substrB (lowerStr f) (lowerStr ((ds.getD i dflt).name))
  else decide (i ∈ u)

/-- Membership in `location_matches` (lines 156-160): exact lowercase key
lookup, with the same substring fallback when the bucket is empty. -/
def locMatchSet (ds : List Destination) (idx : IndexSet) (f : String)
    (i : Nat) : Bool :=
  let key := lowerStr f
  let l := idx.location_index key
  if l.isEmpty then substrB key (lowerStr ((ds.getD i dflt).location))
  else decide (i ∈ l)

/-- `result_indexes` at line 169, materialised in increasing order: start from
`set(range(len(data)))` and intersect the four optional filter sets (lines
145-167).  Intersecting a subset of `range(n)` with a set of positions is
filtering by membership. -/
def queryPositions (ds : List Destination) (idx : IndexSet) (q : QueryParams) :
    List Nat :=
  let r0 := List.range ds.length
  let r1 := match q.name_filter with
    | some f => if f = "" then r0 else r0.filter (nameMatchSet ds idx f)
    | none => r0
  let r2 := match q.location_filter with
    | some f => if f = "" then r1 else r1.filter (locMatchSet ds idx f)
    | none => r1
  let r3 := match q.price_range_filter with
    | some pr => r2.filter (fun i => decide (i ∈ idx.price_range_index pr))
    | none => r2
  let r4 := match q.availability_filter with
    | some b => r3.filter (fun i => decide (i ∈ idx.availability_index b))
    | none => r3
  r4

/-- Lines 169-175 of `read_destinations`: materialise the matching records,
sort stably by name, take the total count before pagination, slice
`[skip, skip+limit)`. -/
def runQuery (ds : List Destination) (idx : IndexSet) (q : QueryParams) :
    List Destination × Nat :=
  let recs := (queryPositions ds idx q).map (fun i => ds.getD i dflt)
  let sorted := sortByName recs
  ((sorted.drop q.skip).take q.limit, sorted.length)

/-- Result of one `read_destinations` call: final cache state, the returned
page and total count (or the raised `HTTPException` detail), whether a
synchronous rebuild body ran during the call, and whether a background
refresh task was scheduled. -/
structure ReadOutcome where
  state : CacheState
  result : Except String (List Destination × Nat)
  didRebuild : Bool
  scheduledBackground : Bool

/-- `read_destinations` (lines 120-175).  `now`, `fileGone`, `fileMtime` and
`readResult` model the clock and the backing store exactly as in
`refresh_cache`; `hasBG` models whether a `BackgroundTasks` object was passed.
The access counter always increments; a forced or invalid read counts a miss
and rebuilds synchronously; a valid read counts a hit and, past 80% of the
TTL, schedules a background refresh without blocking. -/
def read_destinations (s : CacheState) (now : Nat) (fileGone : Bool)
    (fileMtime : Nat) (readResult : Except String (List Destination))
    (hasBG : Bool) (q : QueryParams) (force_refresh : Bool) : ReadOutcome :=
  let s0 := { s with access_count := s.access_count + 1 }
  if force_refresh || !is_cache_valid s0 now fileGone fileMtime then
    let s1 := { s0 with miss_count := s0.miss_count + 1 }
    let r := refresh_cache s1 fileGone readResult now fileMtime
    match r.err with
    | some e => ⟨r.state, Except.error e, r.performed, false⟩
    | none =>
      match r.state.data with
      | none =>
        ⟨r.state, Except.error "Failed to load destination data",
         r.performed, false⟩
      | some ds => ⟨r.state, Except.ok (runQuery ds r.state.idx q),
                    r.performed, false⟩
  else
    let s1 := { s0 with hit_count := s0.hit_count + 1 }
    let sched := hasBG && decide (CACHE_TTL * 4 < (now - s1.last_refresh_time) * 5)
    match s1.data with
    | none => ⟨s1, Except.error "Failed to load destination data", false, sched⟩
    | some ds => ⟨s1, Except.ok (runQuery ds s1.idx q), false, sched⟩

/-- The error responses the endpoint handlers raise.  `notFound` is the 404 of
`get_destination` (lines 231-238), whose detail carries the requested id and a
suggestion string; `notFoundPlain` is the message-only 404 of
`update_destination` / `delete_destination`; `internalError` re-raises a 500
detail coming from the read or write path. -/
inductive ApiError where
  | internalError (detail : String)
  | notFound (requested_id : Nat) (suggestion : String)
  | notFoundPlain (requested_id : Nat)
deriving DecidableEq

/-- The linear scan of `get_destination` (lines 228-230). -/
def findDest (id : Nat) : List Destination → Option Destination
  | [] => none
  | d :: rest => if d.destination_id = id then some d else findDest id rest

/-- `GET /destinations/{id}` (lines 225-238): read with defaulted parameters
(no force), scan the returned page for the id, otherwise raise a 404 carrying
the requested id and the suggestion string. -/
def get_destination (s : CacheState) (now : Nat) (fileGone : Bool)
    (fileMtime : Nat) (readResult : Except String (List Destination))
    (id : Nat) : CacheState × Except ApiError Destination :=
  let o := read_destinations s now fileGone fileMtime readResult true
    defaultQuery false
  match o.result with
  | Except.error e => (o.state, Except.error (ApiError.internalError e))
  | Except.ok (page, _) =>
    match findDest id page with
    | some d => (o.state, Except.ok d)
    | none =>
      (o.state, Except.error (ApiError.notFound id
        "Verify the destination ID or use GET /destinations/"))

/-- `POST /destinations/` (lines 240-246): force-refresh read with defaulted
parameters, append the new record to the returned sequence, persist it (the
successful branch of `write_destinations`, which also invalidates the cache).
The persisted sequence is returned alongside the created record so that the
theorems can speak about what reaches the store. -/
def create_destination (s : CacheState) (now : Nat) (fileGone : Bool)
    (fileMtime : Nat) (readResult : Except String (List Destination))
    (newDest : Destination) :
    CacheState × Except String (List Destination × Destination) :=
  let o := read_destinations s now fileGone fileMtime readResult false
    defaultQuery true
  match o.result with
  | Except.error e => (o.state, Except.error e)
  | Except.ok (page, _) =>
    (invalidate_cache o.state, Except.ok (page ++ [newDest], newDest))

/-- `DestinationUpdate` from `app/models/destination.py`: every field
optional; `none` models a field absent from the payload (what
`dict(exclude_unset=True)` drops). -/
structure DestinationUpdate where
  name : Option String
  location : Option String
  description : Option String
  price_range : Option PriceRange
  availability : Option Bool
deriving DecidableEq

/-- `destination.copy(update=destination_update.dict(exclude_unset=True))`
(lines 253-254): copy the record, overwriting exactly the fields present in
the payload; `destination_id` is not a payload field and is always kept. -/
def applyUpdate (d : Destination) (u : DestinationUpdate) : Destination :=
  { destination_id := d.destination_id
    name := u.name.getD d.name
    location := u.location.getD d.location
    description := u.description.getD d.description
    price_range := u.price_range.getD d.price_range
    availability := u.availability.getD d.availability }

/-- The `for i, destination in enumerate(destinations)` loop of
`update_destination` (lines 251-257): replace the first record carrying the
id and return the resulting sequence (what gets persisted) together with the
updated record; `none` when no record matches. -/
def updateLoop (id : Nat) (u : DestinationUpdate) :
    List Destination → Option (List Destination × Destination)
  | [] => none
  | d :: rest =>
    if d.destination_id = id then
      let d' := applyUpdate d u
      some (d' :: rest, d')
    else
      match updateLoop id u rest with
      | some (l, d') => some (d :: l, d')
      | none => none

/-- `PUT /destinations/{id}` (lines 248-261): force-refresh read with
defaulted parameters, then the replace-first-match loop; 404 when the id is
not in the page.  On success the persisted sequence and the updated record
are returned. -/
def update_destination (s : CacheState) (now : Nat) (fileGone : Bool)
    (fileMtime : Nat) (readResult : Except String (List Destination))
    (id : Nat) (u : DestinationUpdate) :
    CacheState × Except ApiError (List Destination × Destination) :=
  let o := read_destinations s now fileGone fileMtime readResult false
    defaultQuery true
  match o.result with
  | Except.error e => (o.state, Except.error (ApiError.internalError e))
  | Except.ok (page, _) =>
    match updateLoop id u page with
    | some (l, d') => (invalidate_cache o.state, Except.ok (l, d'))
    | none => (o.state, Except.error (ApiError.notFoundPlain id))

/-- Whether some long token of the filter occurs among the long tokens of
some stored name: the record-level condition under which the token union of
lines 149-151 is non-empty once the indexes are derived from `ds`. -/
def anyTokenHit (ds : List Destination) (f : String) : Bool :=
  (longTokens f).any (fun w => ds.any (fun d => decide (w ∈ longTokens d.name)))

/-- Record-level semantics of the name filter step (lines 147-154): token
match against the record's own long name tokens when any stored name yields a
token hit, otherwise the case-insensitive substring fallback. -/
def nameFilterPred (ds : List Destination) (f : String) (d : Destination) :
    Bool :=
  if anyTokenHit ds f then
    (longTokens f).any (fun w => decide (w ∈ longTokens d.name))
  else substrB (lowerStr f) (lowerStr d.name)

/-- Record-level semantics of the location filter step (lines 156-161):
exact lowercase match when some stored location equals the key, otherwise the
substring fallback. -/
def locFilterPred (ds : List Destination) (f : String) (d : Destination) :
    Bool :=
  let key := lowerStr f
  if ds.any (fun e => decide (lowerStr e.location = key)) then
    decide (lowerStr d.location = key)
  else substrB key (lowerStr d.location)

/-- A record matches all the given filters, at the record level (empty-string
filters are falsy in Python and skipped, exactly as in `read_destinations`). -/
def matchesAll (ds : List Destination) (q : QueryParams) (d : Destination) :
    Bool :=
  (match q.name_filter with
   | some f => if f = "" then true else nameFilterPred ds f d
   | none => true) &&
  (match q.location_filter with
   | some f => if f = "" then true else locFilterPred ds f d
   | none => true) &&
  (match q.price_range_filter with
   | some pr => decide (d.price_range = pr)
   | none => true) &&
  (match q.availability_filter with
   | some b => decide (d.availability = b)
   | none => true)

/-! ### Concrete fixtures used by counterexamples and witnesses -/

/-- An index set left over from an earlier build: one stale position under the
`budget` price bucket. -/
def staleIdx : IndexSet :=
  { emptyIndexSet with
    price_range_index := fun pr => if pr = PriceRange.budget then [5] else [] }

/-- A cache whose snapshot has just been set to the empty sequence while the
indexes still hold the stale entry. -/
def staleState : CacheState :=
  { initialCache with data := some [], idx := staleIdx }

/-- A single concrete record. -/
def parisDest : Destination :=
  { destination_id := 1, name := "Paris", location := "France"
    description := "", price_range := PriceRange.moderate, availability := true }

/-- A single concrete record whose name contains the short filter used in the
fallback scenario. -/
def tokyoDest : Destination :=
  { destination_id := 2, name := "Tokyo", location := "Japan"
    description := "", price_range := PriceRange.luxury, availability := true }

/-- State after one `read_destinations` on a fresh cache at time 100 against
a store holding `[]` with modification time 50: the TTL check fails on the
zeroed cache, so this is a miss plus a successful rebuild. -/
def statsScenario1 : CacheState :=
  (read_destinations initialCache 100 false 50 (Except.ok []) false
    defaultQuery false).state

/-- State after a second identical read: a hit. -/
def statsScenario2 : CacheState :=
  (read_destinations statsScenario1 100 false 50 (Except.ok []) false
    defaultQuery false).state

/-- State after a third identical read: another hit — three accesses in all,
one miss and two hits. -/
def statsScenario3 : CacheState :=
  (read_destinations statsScenario2 100 false 50 (Except.ok []) false
    defaultQuery false).state

/-- Update-scenario record kept untouched. -/
def updDestA : Destination :=
  { destination_id := 1, name := "Alpha", location := "X", description := ""
    price_range := PriceRange.budget, availability := true }

/-- Update-scenario record targeted by the PUT. -/
def updDestB : Destination :=
  { destination_id := 2, name := "Beta", location := "Y", description := ""
    price_range := PriceRange.luxury, availability := false }

/-- A PUT payload setting only `name`. -/
def updPayload : DestinationUpdate :=
  { name := some "NewBeta", location := none, description := none
    price_range := none, availability := none }

/-- The record `updDestB` after applying `updPayload`. -/
def updDestBNew : Destination :=
  { destination_id := 2, name := "NewBeta", location := "Y", description := ""
    price_range := PriceRange.luxury, availability := false }

/-- Distinct two-letter names whose lexicographic order equals the numeric
order of `k` (base-26 big-endian over capitals). -/
def storedName (k : Nat) : String :=
  String.mk [Char.ofNat (65 + k / 26), Char.ofNat (65 + k % 26)]

/-- The `k`-th record of the large stored collection. -/
def mkStored (k : Nat) : Destination :=
  { destination_id := k, name := storedName k, location := "Loc"
    description := "", price_range := PriceRange.budget, availability := true }

/-- A stored collection of 101 records — one more than the default `limit`
of `read_destinations`. -/
def bigStore : List Destination :=
  (List.range 101).map mkStored

/-- The record POSTed in the large-collection scenario. -/
def newDest : Destination :=
  { destination_id := 500, name := "ZZ", location := "Loc", description := ""
    price_range := PriceRange.moderate, availability := true }

/-- The sequence a mutation handed to `write_destinations` (empty when the
mutation failed before persisting). -/
def persistedOf (r : Except String (List Destination × Destination)) :
    List Destination :=
  match r with
  | Except.ok (l, _) => l
  | Except.error _ => []

/-- Whether a mutation result is a success. -/
def isOkB (r : Except String (List Destination × Destination)) : Bool :=
  match r with
  | Except.ok _ => true
  | Except.error _ => false

/-- The error a single-record GET raised, if any. -/
def errOf (r : Except ApiError Destination) : Option ApiError :=
  match r with
  | Except.error e => some e
  | Except.ok _ => none

/-! ### Bucket membership of the built indexes -/

lemma mem_appendAt {κ : Type} [DecidableEq κ] (m : κ → List Nat) (k : κ)
    (i : Nat) (k' : κ) (j : Nat) :
    j ∈ appendAt m k i k' ↔ j ∈ m k' ∨ (k' = k ∧ j = i) := by
  unfold appendAt
  by_cases h : k' = k <;> simp [h]

lemma mem_insertTokens (m : String → List Nat) (ws : List String) (i : Nat)
    (w : String) (j : Nat) :
    j ∈ insertTokens m ws i w ↔ j ∈ m w ∨ (w ∈ ws ∧ j = i) := by
  induction ws generalizing m with
  | nil => simp [insertTokens]
  | cons w' tl ih =>
    rw [show insertTokens m (w' :: tl) i = insertTokens (appendAt m w' i) tl i
      from rfl, ih, mem_appendAt]
    simp only [ List.mem_cons]
    tauto

lemma mem_buildFrom_name (ds : List Destination) (i : Nat) (m : IndexSet)
    (w : String) (j : Nat) :
    j ∈ (buildFrom i ds m).name_index w ↔
      j ∈ m.name_index w ∨
        ∃ t, t < ds.length ∧ j = i + t ∧ w ∈ longTokens ((ds.getD t dflt).name) := by
  induction ds generalizing i m with
  | nil => simp [buildFrom]
  | cons d tl ih =>
    rw [show buildFrom i (d :: tl) m = buildFrom (i + 1) tl (insertRecord m i d)
      from rfl, ih]
    simp only [ List.length_cons]
    rw [show (insertRecord m i d).name_index
        = insertTokens m.name_index (longTokens d.name) i from rfl]
    rw [mem_insertTokens]
    constructor
    · rintro ((h | ⟨hw, hj⟩) | ⟨t, ht, hj, hget⟩)
      · exact Or.inl h
      · exact Or.inr ⟨0, by omega, by omega, by simpa using hw⟩
      · exact Or.inr ⟨t + 1, by omega, by omega, by simpa using hget⟩
    · rintro (h | ⟨t, ht, hj, hget⟩)
      · exact Or.inl (Or.inl h)
      · cases t with
        | zero => exact Or.inl (Or.inr ⟨by simpa using hget, by omega⟩)
        | succ t' => exact Or.inr ⟨t', by omega, by omega, by simpa using hget⟩

lemma mem_buildFrom_location (ds : List Destination) (i : Nat) (m : IndexSet)
    (k : String) (j : Nat) :
    j ∈ (buildFrom i ds m).location_index k ↔
      j ∈ m.location_index k ∨
        ∃ t, t < ds.length ∧ j = i + t ∧ lowerStr ((ds.getD t dflt).location) = k := by
  induction ds generalizing i m with
  | nil => simp [buildFrom]
  | cons d tl ih =>
    rw [show buildFrom i (d :: tl) m = buildFrom (i + 1) tl (insertRecord m i d)
      from rfl, ih]
    simp only [ List.length_cons]
    rw [show (insertRecord m i d).location_index
        = appendAt m.location_index (lowerStr d.location) i from rfl]
    rw [mem_appendAt]
    constructor
    · rintro ((h | ⟨hk, hj⟩) | ⟨t, ht, hj, hget⟩)
      · exact Or.inl h
      · exact Or.inr ⟨0, by omega, by omega, by simpa using hk.symm⟩
      · exact Or.inr ⟨t + 1, by omega, by omega, by simpa using hget⟩
    · rintro (h | ⟨t, ht, hj, hget⟩)
      · exact Or.inl (Or.inl h)
      · cases t with
        | zero => exact Or.inl (Or.inr ⟨by simp at hget; exact hget.symm, by omega⟩)
        | succ t' => exact Or.inr ⟨t', by omega, by omega, by simpa using hget⟩

lemma mem_buildFrom_price (ds : List Destination) (i : Nat) (m : IndexSet)
    (pr : PriceRange) (j : Nat) :
    j ∈ (buildFrom i ds m).price_range_index pr ↔
      j ∈ m.price_range_index pr ∨
        ∃ t, t < ds.length ∧ j = i + t ∧ (ds.getD t dflt).price_range = pr := by
  induction ds generalizing i m with
  | nil => simp [buildFrom]
  | cons d tl ih =>
    rw [show buildFrom i (d :: tl) m = buildFrom (i + 1) tl (insertRecord m i d)
      from rfl, ih]
    simp only [ List.length_cons]
    rw [show (insertRecord m i d).price_range_index
        = appendAt m.price_range_index d.price_range i from rfl]
    rw [mem_appendAt]
    constructor
    · rintro ((h | ⟨hk, hj⟩) | ⟨t, ht, hj, hget⟩)
      · exact Or.inl h
      · exact Or.inr ⟨0, by omega, by omega, by simpa using hk.symm⟩
      · exact Or.inr ⟨t + 1, by omega, by omega, by simpa using hget⟩
    · rintro (h | ⟨t, ht, hj, hget⟩)
      · exact Or.inl (Or.inl h)
      · cases t with
        | zero => exact Or.inl (Or.inr ⟨by simp at hget; exact hget.symm, by omega⟩)
        | succ t' => exact Or.inr ⟨t', by omega, by omega, by simpa using hget⟩

lemma mem_buildFrom_availability (ds : List Destination) (i : Nat)
    (m : IndexSet) (b : Bool) (j : Nat) :
    j ∈ (buildFrom i ds m).availability_index b ↔
      j ∈ m.availability_index b ∨
        ∃ t, t < ds.length ∧ j = i + t ∧ (ds.getD t dflt).availability = b := by
  induction ds generalizing i m with
  | nil => simp [buildFrom]
  | cons d tl ih =>
    rw [show buildFrom i (d :: tl) m = buildFrom (i + 1) tl (insertRecord m i d)
      from rfl, ih]
    simp only [ List.length_cons]
    rw [show (insertRecord m i d).availability_index
        = appendAt m.availability_index d.availability i from rfl]
    rw [mem_appendAt]
    constructor
    · rintro ((h | ⟨hk, hj⟩) | ⟨t, ht, hj, hget⟩)
      · exact Or.inl h
      · exact Or.inr ⟨0, by omega, by omega, by simpa using hk.symm⟩
      · exact Or.inr ⟨t + 1, by omega, by omega, by simpa using hget⟩
    · rintro (h | ⟨t, ht, hj, hget⟩)
      · exact Or.inl (Or.inl h)
      · cases t with
        | zero => exact Or.inl (Or.inr ⟨by simp at hget; exact hget.symm, by omega⟩)
        | succ t' => exact Or.inr ⟨t', by omega, by omega, by simpa using hget⟩

lemma mem_buildIndexSet_name (ds : List Destination) (w : String) (j : Nat) :
    j ∈ (buildIndexSet ds).name_index w ↔
      j < ds.length ∧ w ∈ longTokens ((ds.getD j dflt).name) := by
  unfold buildIndexSet
  rw [mem_buildFrom_name]
  simp only [emptyIndexSet, List.not_mem_nil, false_or, Nat.zero_add]
  constructor
  · rintro ⟨t, ht, rfl, hget⟩
    exact ⟨ht, hget⟩
  · rintro ⟨hj, hget⟩
    exact ⟨j, hj, rfl, hget⟩

lemma mem_buildIndexSet_location (ds : List Destination) (k : String) (j : Nat) :
    j ∈ (buildIndexSet ds).location_index k ↔
      j < ds.length ∧ lowerStr ((ds.getD j dflt).location) = k := by
  unfold buildIndexSet
  rw [mem_buildFrom_location]
  simp only [emptyIndexSet, List.not_mem_nil, false_or, Nat.zero_add]
  constructor
  · rintro ⟨t, ht, rfl, hget⟩
    exact ⟨ht, hget⟩
  · rintro ⟨hj, hget⟩
    exact ⟨j, hj, rfl, hget⟩

lemma mem_buildIndexSet_price (ds : List Destination) (pr : PriceRange) (j : Nat) :
    j ∈ (buildIndexSet ds).price_range_index pr ↔
      j < ds.length ∧ (ds.getD j dflt).price_range = pr := by
  unfold buildIndexSet
  rw [mem_buildFrom_price]
  simp only [emptyIndexSet, List.not_mem_nil, false_or, Nat.zero_add]
  constructor
  · rintro ⟨t, ht, rfl, hget⟩
    exact ⟨ht, hget⟩
  · rintro ⟨hj, hget⟩
    exact ⟨j, hj, rfl, hget⟩

lemma mem_buildIndexSet_availability (ds : List Destination) (b : Bool) (j : Nat) :
    j ∈ (buildIndexSet ds).availability_index b ↔
      j < ds.length ∧ (ds.getD j dflt).availability = b := by
  unfold buildIndexSet
  rw [mem_buildFrom_availability]
  simp only [emptyIndexSet, List.not_mem_nil, false_or, Nat.zero_add]
  constructor
  · rintro ⟨t, ht, rfl, hget⟩
    exact ⟨ht, hget⟩
  · rintro ⟨hj, hget⟩
    exact ⟨j, hj, rfl, hget⟩

lemma mem_iff_getD (ds : List Destination) (d : Destination) :
    d ∈ ds ↔ ∃ j, j < ds.length ∧ ds.getD j dflt = d := by
  rw [ List.mem_iff_getElem]
  constructor
  · rintro ⟨n, h, hn⟩
    exact ⟨n, h, by rw [ List.getD_eq_getElem ds dflt h]; exact hn⟩
  · rintro ⟨n, h, hn⟩
    exact ⟨n, h, by rw [← List.getD_eq_getElem ds dflt h]; exact hn⟩

/-! ### The sort is a permutation -/

lemma insertByName_perm (d : Destination) (l : List Destination) :
    (insertByName d l).Perm (d :: l) := by
  induction l with
  | nil => simp [insertByName]
  | cons e t ih =>
    unfold insertByName
    by_cases h : strLeB d.name e.name
    · simp [h]
    · simp only [h, Bool.false_eq_true, if_false]
      exact (ih.cons e).trans (List.Perm.swap d e t)

lemma sortByName_perm (l : List Destination) : (sortByName l).Perm l := by
  induction l with
  | nil => simp [sortByName]
  | cons d t ih =>
    unfold sortByName
    exact (insertByName_perm d (sortByName t)).trans (ih.cons d)

lemma sortByName_length (l : List Destination) :
    (sortByName l).length = l.length :=
  (sortByName_perm l).length_eq

/-! ### Materialising filtered positions gives the filtered records -/

lemma range_filter_map_getD (ds : List Destination) (pd : Destination → Bool) :
    ((List.range ds.length).filter (fun i => pd (ds.getD i dflt))).map
      (fun i => ds.getD i dflt) = ds.filter pd := by
  induction ds with
  | nil => simp
  | cons d tl ih =>
    have h1 : List.range (d :: tl).length
        = 0 :: (List.range tl.length).map Nat.succ := by
      rw [ List.length_cons, List.range_succ_eq_map]
    have h3 : (fun i => pd ((d :: tl).getD i dflt)) ∘ Nat.succ
        = fun i => pd (tl.getD i dflt) := by
      funext i
      simp [Function.comp, List.getD_cons_succ]
    have h4 : (fun i => (d :: tl).getD i dflt) ∘ Nat.succ
        = fun i => tl.getD i dflt := by
      funext i
      simp [Function.comp, List.getD_cons_succ]
    rw [h1, List.filter_cons]
    by_cases hp : pd d
    · simp only [ List.getD_cons_zero, hp, if_true, List.map_cons,
        List.filter_map, List.map_map, h3, h4, ih]
      rw [ List.filter_cons_of_pos (by exact hp)]
    · simp only [ List.getD_cons_zero, hp, Bool.false_eq_true, if_false,
        List.filter_map, List.map_map, h3, h4, ih]
      rw [ List.filter_cons_of_neg (by simp [hp])]

/-! ### The index-backed filter stages agree with the record-level filters -/

lemma nameUnion_eq_nil_iff (ds : List Destination) (f : String) :
    (longTokens f).flatMap (buildIndexSet ds).name_index = []
      ↔ anyTokenHit ds f = false := by
  rw [ List.flatMap_eq_nil_iff]
  rw [show (anyTokenHit ds f = false) ↔ ¬ (anyTokenHit ds f = true) by simp]
  unfold anyTokenHit
  simp only [ List.any_eq_true, decide_eq_true_eq, not_exists, not_and]
  constructor
  · intro h w hw d hd hwd
    obtain ⟨j, hj, rfl⟩ := (mem_iff_getD ds d).mp hd
    have h2 := h w hw
    rw [ List.eq_nil_iff_forall_not_mem] at h2
    exact h2 j ((mem_buildIndexSet_name ds w j).mpr ⟨hj, hwd⟩)
  · intro h w hw
    rw [ List.eq_nil_iff_forall_not_mem]
    intro j hjmem
    obtain ⟨hj, hwd⟩ := (mem_buildIndexSet_name ds w j).mp hjmem
    exact h w hw (ds.getD j dflt) ((mem_iff_getD ds _).mpr ⟨j, hj, rfl⟩) hwd

lemma locBucket_eq_nil_iff (ds : List Destination) (k : String) :
    (buildIndexSet ds).location_index k = []
      ↔ (ds.any (fun e => decide (lowerStr e.location = k))) = false := by
  rw [show ((ds.any fun e => decide (lowerStr e.location = k)) = false)
      ↔ ¬ ((ds.any fun e => decide (lowerStr e.location = k)) = true) by simp]
  simp only [ List.any_eq_true, decide_eq_true_eq, not_exists, not_and]
  rw [ List.eq_nil_iff_forall_not_mem]
  constructor
  · intro h d hd hk
    obtain ⟨j, hj, rfl⟩ := (mem_iff_getD ds d).mp hd
    exact h j ((mem_buildIndexSet_location ds k j).mpr ⟨hj, hk⟩)
  · intro h j hjmem
    obtain ⟨hj, hk⟩ := (mem_buildIndexSet_location ds k j).mp hjmem
    exact h (ds.getD j dflt) ((mem_iff_getD ds _).mpr ⟨j, hj, rfl⟩) hk

lemma nameMatchSet_eq (ds : List Destination) (f : String) (i : Nat)
    (hi : i < ds.length) :
    nameMatchSet ds (buildIndexSet ds) f i
      = nameFilterPred ds f (ds.getD i dflt) := by
  unfold nameMatchSet nameFilterPred
  by_cases h : anyTokenHit ds f = true
  · have hne : (longTokens f).flatMap (buildIndexSet ds).name_index ≠ [] := by
      intro hc
      rw [nameUnion_eq_nil_iff] at hc
      rw [h] at hc
      cases hc
    have hE : ¬ (((longTokens f).flatMap (buildIndexSet ds).name_index).isEmpty
        = true) := by
      rw [ List.isEmpty_iff]
      exact hne
    rw [if_neg hE, if_pos h, Bool.eq_iff_iff]
    simp only [decide_eq_true_eq, List.any_eq_true, List.mem_flatMap,
      mem_buildIndexSet_name]
    constructor
    · rintro ⟨w, hw, _, hmem⟩
      exact ⟨w, hw, hmem⟩
    · rintro ⟨w, hw, hmem⟩
      exact ⟨w, hw, hi, hmem⟩
  · have hf : anyTokenHit ds f = false := by
      cases hc : anyTokenHit ds f
      · rfl
      · exact absurd hc h
    have hE : ((longTokens f).flatMap (buildIndexSet ds).name_index).isEmpty
        = true := by
      rw [ List.isEmpty_iff, nameUnion_eq_nil_iff]
      exact hf
    rw [if_pos hE, if_neg h]

lemma locMatchSet_eq (ds : List Destination) (f : String) (i : Nat)
    (hi : i < ds.length) :
    locMatchSet ds (buildIndexSet ds) f i
      = locFilterPred ds f (ds.getD i dflt) := by
  unfold locMatchSet locFilterPred
  by_cases h : (ds.any fun e => decide (lowerStr e.location = lowerStr f)) = true
  · have hne : (buildIndexSet ds).location_index (lowerStr f) ≠ [] := by
      intro hc
      rw [locBucket_eq_nil_iff] at hc
      rw [h] at hc
      cases hc
    have hE : ¬ (((buildIndexSet ds).location_index (lowerStr f)).isEmpty
        = true) := by
      rw [ List.isEmpty_iff]
      exact hne
    rw [if_neg hE, if_pos h, Bool.eq_iff_iff]
    simp only [decide_eq_true_eq, mem_buildIndexSet_location]
    constructor
    · rintro ⟨_, hk⟩
      exact hk
    · intro hk
      exact ⟨hi, hk⟩
  · have hf : (ds.any fun e => decide (lowerStr e.location = lowerStr f))
        = false := by
      cases hc : (ds.any fun e => decide (lowerStr e.location = lowerStr f))
      · rfl
      · exact absurd hc h
    have hE : ((buildIndexSet ds).location_index (lowerStr f)).isEmpty
        = true := by
      rw [ List.isEmpty_iff, locBucket_eq_nil_iff]
      exact hf
    rw [if_pos hE, if_neg h]

lemma nameStage_eq (ds : List Destination) (nf : Option String)
    (r : List Nat) (hr : ∀ i ∈ r, i < ds.length) :
    (match nf with
     | some f => if f = "" then r
                 else r.filter (nameMatchSet ds (buildIndexSet ds) f)
     | none => r)
    = r.filter (fun i => match nf with
        | some f => if f = "" then true else nameFilterPred ds f (ds.getD i dflt)
        | none => true) := by
  cases nf with
  | none => exact (List.filter_true r).symm
  | some f =>
    by_cases hf : f = ""
    · simp only [hf, if_pos]
      exact (List.filter_true r).symm
    · simp only [hf, if_false]
      exact List.filter_congr (fun i hi => nameMatchSet_eq ds f i (hr i hi))

lemma locStage_eq (ds : List Destination) (lf : Option String)
    (r : List Nat) (hr : ∀ i ∈ r, i < ds.length) :
    (match lf with
     | some f => if f = "" then r
                 else r.filter (locMatchSet ds (buildIndexSet ds) f)
     | none => r)
    = r.filter (fun i => match lf with
        | some f => if f = "" then true else locFilterPred ds f (ds.getD i dflt)
        | none => true) := by
  cases lf with
  | none => exact (List.filter_true r).symm
  | some f =>
    by_cases hf : f = ""
    · simp only [hf, if_pos]
      exact (List.filter_true r).symm
    · simp only [hf, if_false]
      exact List.filter_congr (fun i hi => locMatchSet_eq ds f i (hr i hi))

lemma priceStage_eq (ds : List Destination) (pf : Option PriceRange)
    (r : List Nat) (hr : ∀ i ∈ r, i < ds.length) :
    (match pf with
     | some pr => r.filter
         (fun i => decide (i ∈ (buildIndexSet ds).price_range_index pr))
     | none => r)
    = r.filter (fun i => match pf with
        | some pr => decide ((ds.getD i dflt).price_range = pr)
        | none => true) := by
  cases pf with
  | none => exact (List.filter_true r).symm
  | some pr =>
    apply List.filter_congr
    intro i hi
    have hi' := hr i hi
    rw [decide_eq_decide, mem_buildIndexSet_price]
    simp [hi']

lemma availStage_eq (ds : List Destination) (af : Option Bool)
    (r : List Nat) (hr : ∀ i ∈ r, i < ds.length) :
    (match af with
     | some b => r.filter
         (fun i => decide (i ∈ (buildIndexSet ds).availability_index b))
     | none => r)
    = r.filter (fun i => match af with
        | some b => decide ((ds.getD i dflt).availability = b)
        | none => true) := by
  cases af with
  | none => exact (List.filter_true r).symm
  | some b =>
    apply List.filter_congr
    intro i hi
    have hi' := hr i hi
    rw [decide_eq_decide, mem_buildIndexSet_availability]
    simp [hi']

theorem queryPositions_spec (ds : List Destination) (q : QueryParams) :
    queryPositions ds (buildIndexSet ds) q
      = (List.range ds.length).filter
          (fun i => matchesAll ds q (ds.getD i dflt)) := by
  obtain ⟨sk, lim, nf, lf, pf, af⟩ := q
  unfold queryPositions
  dsimp only
  rw [nameStage_eq ds nf (List.range ds.length)
    (fun i hi => List.mem_range.mp hi)]
  rw [locStage_eq ds lf _
    (fun i hi => List.mem_range.mp (List.mem_filter.mp hi).1)]
  rw [priceStage_eq ds pf _
    (fun i hi => List.mem_range.mp
      (List.mem_filter.mp (List.mem_filter.mp hi).1).1)]
  rw [availStage_eq ds af _
    (fun i hi => List.mem_range.mp (List.mem_filter.mp
      (List.mem_filter.mp (List.mem_filter.mp hi).1).1).1)]
  simp only [ List.filter_filter]
  unfold matchesAll
  apply List.filter_congr
  intro i _
  cases nf <;> cases lf <;> cases pf <;> cases af <;>
    simp only [Bool.and_true, Bool.true_and, Bool.and_assoc, Bool.and_comm,
      Bool.and_left_comm]

theorem runQuery_spec (ds : List Destination) (q : QueryParams) :
    runQuery ds (buildIndexSet ds) q
      = (((sortByName (ds.filter (matchesAll ds q))).drop q.skip).take q.limit,
         (ds.filter (matchesAll ds q)).length) := by
  unfold runQuery
  dsimp only
  rw [queryPositions_spec, range_filter_map_getD, sortByName_length]

/-! ### Claim theorems -/

/-- C7: for every snapshot, every combination of filters and every
`skip`, `limit`, the query returns a total count equal to the number of
records matching all given filters — independent of `skip` and `limit` —
and a page equal to the matching records sorted by name ascending and then
sliced to the half-open range from `skip` of length `limit`. -/
theorem spec_C7_filter_sort_paginate (ds : List Destination) (q : QueryParams) :
    runQuery ds (buildIndexSet ds) q
      = (((sortByName (ds.filter (matchesAll ds q))).drop q.skip).take q.limit,
         (ds.filter (matchesAll ds q)).length) :=
  runQuery_spec ds q

/-- C2 counterexample: calling `build_indexes` on the empty sequence does not
clear the mappings — a stale position (5) left by an earlier build survives in
the `budget` price bucket even though the sequence is empty, so the mappings
are not derived solely from the sequence and the stale position is not a
valid index into it. -/
theorem spec_C2_counterexample :
    staleState.data = some [] ∧
    (build_indexes staleState).idx.price_range_index PriceRange.budget = [5] ∧
    ¬ (5 < ([] : List Destination).length) := by
  refine ⟨rfl, ?_, by simp⟩
  rfl

/-- C2 amended: after every call of the index build procedure on a non-empty
record sequence the four mappings are derived solely from that sequence (no
carry-over), every valid position appears in the price bucket of its record's
price tier, and every position found in any bucket of any of the four
mappings is a valid index whose record matches that bucket's key.  (On an
empty or absent sequence the build leaves the previous mappings in place.) -/
theorem spec_C2_nonempty_build_round_trip (s : CacheState)
    (ds : List Destination) (hds : s.data = some ds) (hne : ds ≠ []) :
    (build_indexes s).idx = buildIndexSet ds ∧
    (∀ p, p < ds.length →
      p ∈ (build_indexes s).idx.price_range_index ((ds.getD p dflt).price_range)) ∧
    (∀ w j, j ∈ (build_indexes s).idx.name_index w →
      j < ds.length ∧ w ∈ longTokens ((ds.getD j dflt).name)) ∧
    (∀ k j, j ∈ (build_indexes s).idx.location_index k →
      j < ds.length ∧ lowerStr ((ds.getD j dflt).location) = k) ∧
    (∀ pr j, j ∈ (build_indexes s).idx.price_range_index pr →
      j < ds.length ∧ (ds.getD j dflt).price_range = pr) ∧
    (∀ b j, j ∈ (build_indexes s).idx.availability_index b →
      j < ds.length ∧ (ds.getD j dflt).availability = b) := by
  obtain ⟨d, tl, rfl⟩ : ∃ d tl, ds = d :: tl := by
    cases ds with
    | nil => exact absurd rfl hne
    | cons d tl => exact ⟨d, tl, rfl⟩
  have hidx : (build_indexes s).idx = buildIndexSet (d :: tl) := by
    unfold build_indexes rebuiltIdx
    rw [hds]
  refine ⟨hidx, ?_, ?_, ?_, ?_, ?_⟩
  · intro p hp
    rw [hidx, mem_buildIndexSet_price]
    exact ⟨hp, rfl⟩
  · intro w j hj
    rw [hidx, mem_buildIndexSet_name] at hj
    exact hj
  · intro k j hj
    rw [hidx, mem_buildIndexSet_location] at hj
    exact hj
  · intro pr j hj
    rw [hidx, mem_buildIndexSet_price] at hj
    exact hj
  · intro b j hj
    rw [hidx, mem_buildIndexSet_availability] at hj
    exact hj

/-- Witness for the amended C2 at the concrete one-record snapshot. -/
theorem spec_C2_nonempty_build_round_trip_witness :
    ({ initialCache with data := some [parisDest] } : CacheState).data
        = some [parisDest] ∧
    ([parisDest] : List Destination) ≠ [] ∧
    ((build_indexes { initialCache with data := some [parisDest] }).idx
        = buildIndexSet [parisDest] ∧
      (∀ p, p < ([parisDest] : List Destination).length →
        p ∈ (build_indexes { initialCache with data := some [parisDest] }).idx.price_range_index
          ((([parisDest] : List Destination).getD p dflt).price_range)) ∧
      (∀ w j, j ∈ (build_indexes { initialCache with data := some [parisDest] }).idx.name_index w →
        j < ([parisDest] : List Destination).length ∧
          w ∈ longTokens ((([parisDest] : List Destination).getD j dflt).name)) ∧
      (∀ k j, j ∈ (build_indexes { initialCache with data := some [parisDest] }).idx.location_index k →
        j < ([parisDest] : List Destination).length ∧
          lowerStr ((([parisDest] : List Destination).getD j dflt).location) = k) ∧
      (∀ pr j, j ∈ (build_indexes { initialCache with data := some [parisDest] }).idx.price_range_index pr →
        j < ([parisDest] : List Destination).length ∧
          (([parisDest] : List Destination).getD j dflt).price_range = pr) ∧
      (∀ b j, j ∈ (build_indexes { initialCache with data := some [parisDest] }).idx.availability_index b →
        j < ([parisDest] : List Destination).length ∧
          (([parisDest] : List Destination).getD j dflt).availability = b)) :=
  ⟨rfl, by simp,
    spec_C2_nonempty_build_round_trip
      { initialCache with data := some [parisDest] } [parisDest] rfl (by simp)⟩

/-- C4: the cache validity check returns true exactly when a snapshot exists,
the elapsed time since the last refresh is within the fixed 60-unit TTL, and
the backing store's current modification timestamp (when the store exists) is
not newer than the one recorded at the last refresh; any single condition
failing makes it false. -/
theorem spec_C4_validity_iff (s : CacheState) (now : Nat) (fileGone : Bool)
    (fileMtime : Nat) :
    CACHE_TTL = 60 ∧
    (is_cache_valid s now fileGone fileMtime = true ↔
      (s.data.isSome = true ∧
        now - s.last_refresh_time ≤ CACHE_TTL ∧
        (fileGone = true ∨ fileMtime ≤ s.last_modified_time))) := by
  refine ⟨rfl, ?_⟩
  unfold is_cache_valid
  split_ifs with h1 h2
  · constructor
    · intro hc
      cases hc
    · rintro ⟨_, hle, _⟩
      omega
  · simp only [Bool.and_eq_true, Bool.not_eq_true', decide_eq_true_eq] at h2
    constructor
    · intro hc
      cases hc
    · rintro ⟨_, _, hmt⟩
      rcases hmt with hg | hle
      · rw [hg] at h2
        cases h2.1
      · omega
  · simp only [Bool.and_eq_true, Bool.not_eq_true', decide_eq_true_eq,
      not_and, not_lt] at h2
    constructor
    · intro hd
      refine ⟨hd, by omega, ?_⟩
      cases hg : fileGone
      · exact Or.inr (h2 hg)
      · exact Or.inl rfl
    · rintro ⟨hd, _, _⟩
      exact hd

/-- C5: when the rebuild's read/parse step fails, `refresh_cache` sets the
snapshot to absent, surfaces the fatal read error, and clears the
`is_refreshing` guard; moreover the guard is cleared on every exit path that
acquired it, whatever the store and read outcome. -/
theorem spec_C5_refresh_failure (s : CacheState) (now fileMtime : Nat)
    (e : String) (h : s.is_refreshing = false) :
    (refresh_cache s false (Except.error e) now fileMtime).state.data = none ∧
    (refresh_cache s false (Except.error e) now fileMtime).err
      = some ("Failed to read destinations: " ++ e) ∧
    (refresh_cache s false (Except.error e) now fileMtime).state.is_refreshing
      = false ∧
    (∀ (fileGone : Bool) (rr : Except String (List Destination)),
      (refresh_cache s fileGone rr now fileMtime).state.is_refreshing = false) := by
  refine ⟨?_, ?_, ?_, ?_⟩
  · unfold refresh_cache
    rw [if_neg (by rw [h]; exact Bool.false_ne_true)]
  · unfold refresh_cache
    rw [if_neg (by rw [h]; exact Bool.false_ne_true)]
  · unfold refresh_cache
    rw [if_neg (by rw [h]; exact Bool.false_ne_true)]
  · intro fileGone rr
    unfold refresh_cache
    rw [if_neg (by rw [h]; exact Bool.false_ne_true)]
    cases fileGone <;> cases rr <;> rfl

/-- Witness for C5 at a concrete state and error. -/
theorem spec_C5_refresh_failure_witness :
    initialCache.is_refreshing = false ∧
    ((refresh_cache initialCache false (Except.error "boom") 1 2).state.data
        = none ∧
      (refresh_cache initialCache false (Except.error "boom") 1 2).err
        = some ("Failed to read destinations: " ++ "boom") ∧
      (refresh_cache initialCache false
          (Except.error "boom") 1 2).state.is_refreshing = false ∧
      (∀ (fileGone : Bool) (rr : Except String (List Destination)),
        (refresh_cache initialCache fileGone rr 1 2).state.is_refreshing
          = false)) :=
  ⟨rfl, spec_C5_refresh_failure initialCache 1 2 "boom" rfl⟩

lemma containsSubL_nil (l : List Char) : containsSubL [] l = true := by
  cases l <;> simp [containsSubL, startsWithL]

lemma matchesAll_nameOnly (ds : List Destination) (f : String)
    (d : Destination) :
    matchesAll ds ⟨0, ds.length, some f, none, none, none⟩ d
      = if f = "" then true else nameFilterPred ds f d := by
  unfold matchesAll
  simp

/-- C6: whenever the name filter's tokenization yields no surviving token
match in the name index (its bucket union is empty — e.g. any filter of
length at most 2), the query falls back to the case-insensitive substring
scan: with only the name filter given and the whole collection requested, the
total count is the number of records whose lowercase name contains the
lowercase filter, the page is a permutation of exactly those records, and the
result is non-empty whenever such a record exists. -/
theorem spec_C6_short_filter_fallback (ds : List Destination) (f : String)
    (h : (longTokens f).flatMap (buildIndexSet ds).name_index = []) :
    (runQuery ds (buildIndexSet ds)
        ⟨0, ds.length, some f, none, none, none⟩).2
      = (ds.filter (fun d => substrB (lowerStr f) (lowerStr d.name))).length ∧
    List.Perm
      (runQuery ds (buildIndexSet ds)
        ⟨0, ds.length, some f, none, none, none⟩).1
      (ds.filter (fun d => substrB (lowerStr f) (lowerStr d.name))) ∧
    (ds.filter (fun d => substrB (lowerStr f) (lowerStr d.name)) ≠ [] →
      (runQuery ds (buildIndexSet ds)
        ⟨0, ds.length, some f, none, none, none⟩).1 ≠ []) := by
  have hq := runQuery_spec ds ⟨0, ds.length, some f, none, none, none⟩
  have hfil : ds.filter (matchesAll ds ⟨0, ds.length, some f, none, none, none⟩)
      = ds.filter (fun d => substrB (lowerStr f) (lowerStr d.name)) := by
    apply List.filter_congr
    intro d _
    rw [matchesAll_nameOnly]
    by_cases hf : f = ""
    · rw [if_pos hf, hf]
      have hnil : (lowerStr "").data = [] := rfl
      unfold substrB
      rw [hnil, containsSubL_nil]
    · rw [if_neg hf]
      unfold nameFilterPred
      rw [if_neg (by rw [(nameUnion_eq_nil_iff ds f).mp h]; exact
        Bool.false_ne_true)]
  have hpage : (runQuery ds (buildIndexSet ds)
      ⟨0, ds.length, some f, none, none, none⟩).1
      = sortByName (ds.filter (fun d => substrB (lowerStr f) (lowerStr d.name))) := by
    rw [hq]
    dsimp only
    rw [hfil, List.drop_zero, List.take_of_length_le]
    rw [sortByName_length]
    exact List.length_filter_le _ _
  refine ⟨?_, ?_, ?_⟩
  · rw [hq]
    dsimp only
    rw [hfil]
  · rw [hpage]
    exact sortByName_perm _
  · intro hne hcon
    rw [hpage] at hcon
    have hl := sortByName_length
      (ds.filter (fun d => substrB (lowerStr f) (lowerStr d.name)))
    rw [hcon] at hl
    exact hne (List.length_eq_zero.mp hl.symm)

/-- Witness for C6: the filter string Tok has a surviving token but no bucket
entry, so the fallback finds the record named Tokyo. -/
theorem spec_C6_short_filter_fallback_witness :
    (longTokens "Tok").flatMap (buildIndexSet [tokyoDest]).name_index = [] ∧
    ((runQuery [tokyoDest] (buildIndexSet [tokyoDest])
        ⟨0, ([tokyoDest] : List Destination).length, some "Tok", none, none,
         none⟩).2
      = (([tokyoDest] : List Destination).filter
          (fun d => substrB (lowerStr "Tok") (lowerStr d.name))).length ∧
    List.Perm
      (runQuery [tokyoDest] (buildIndexSet [tokyoDest])
        ⟨0, ([tokyoDest] : List Destination).length, some "Tok", none, none,
         none⟩).1
      (([tokyoDest] : List Destination).filter
        (fun d => substrB (lowerStr "Tok") (lowerStr d.name))) ∧
    (([tokyoDest] : List Destination).filter
        (fun d => substrB (lowerStr "Tok") (lowerStr d.name)) ≠ [] →
      (runQuery [tokyoDest] (buildIndexSet [tokyoDest])
        ⟨0, ([tokyoDest] : List Destination).length, some "Tok", none, none,
         none⟩).1 ≠ [])) :=
  ⟨by decide, spec_C6_short_filter_fallback [tokyoDest] "Tok" (by decide)⟩

/-- C8: the hit rate is `hitCount / accessCount * 100` whenever the access
count is positive and exactly 0 (no division error) when it is 0; after the
concrete three-read scenario — one miss then two hits — it equals 200/3,
which is within 0.01 of 66.67. -/
theorem spec_C8_hit_rate (s : CacheState) (now : Nat)
    (h : 0 < s.access_count) :
    (get_cache_stats s now).hit_rate_percentage
      = (s.hit_count : ℚ) / (s.access_count : ℚ) * 100 ∧
    (get_cache_stats initialCache 0).hit_rate_percentage = 0 ∧
    statsScenario3.access_count = 3 ∧
    statsScenario3.hit_count = 2 ∧
    statsScenario3.miss_count = 1 ∧
    (get_cache_stats statsScenario3 100).hit_rate_percentage = 200 / 3 ∧
    |(get_cache_stats statsScenario3 100).hit_rate_percentage - 6667 / 100|
      < 1 / 100 := by
  have ha : statsScenario3.access_count = 3 := by decide
  have hh : statsScenario3.hit_count = 2 := by decide
  have hm : statsScenario3.miss_count = 1 := by decide
  have hrate : (get_cache_stats statsScenario3 100).hit_rate_percentage
      = 200 / 3 := by
    show (if statsScenario3.access_count = 0 then (0 : ℚ)
      else (statsScenario3.hit_count : ℚ) / (statsScenario3.access_count : ℚ)
        * 100) = 200 / 3
    rw [ha, hh]
    norm_num
  refine ⟨?_, rfl, ha, hh, hm, hrate, ?_⟩
  · show (if s.access_count = 0 then (0 : ℚ)
      else (s.hit_count : ℚ) / (s.access_count : ℚ) * 100) = _
    rw [if_neg (by omega)]
  · rw [hrate]
    norm_num [abs]

/-- Witness for C8 at the concrete scenario state. -/
theorem spec_C8_hit_rate_witness :
    0 < statsScenario3.access_count ∧
    ((get_cache_stats statsScenario3 100).hit_rate_percentage
        = (statsScenario3.hit_count : ℚ) / (statsScenario3.access_count : ℚ)
          * 100 ∧
      (get_cache_stats initialCache 0).hit_rate_percentage = 0 ∧
      statsScenario3.access_count = 3 ∧
      statsScenario3.hit_count = 2 ∧
      statsScenario3.miss_count = 1 ∧
      (get_cache_stats statsScenario3 100).hit_rate_percentage = 200 / 3 ∧
      |(get_cache_stats statsScenario3 100).hit_rate_percentage - 6667 / 100|
        < 1 / 100) :=
  ⟨by decide, spec_C8_hit_rate statsScenario3 100 (by decide)⟩

lemma refresh_cache_ok_eq (s : CacheState) (now fm : Nat)
    (recs : List Destination) (h : s.is_refreshing = false) :
    refresh_cache s false (Except.ok recs) now fm
      = ⟨{ build_indexes { s with is_refreshing := true, data := some recs } with
           last_refresh_time := now, last_modified_time := fm,
           is_refreshing := false }, none, true⟩ := by
  unfold refresh_cache
  rw [if_neg (by rw [h]; exact Bool.false_ne_true)]

lemma read_miss_state (s : CacheState) (now fm : Nat)
    (recs : List Destination) (bg : Bool) (q : QueryParams)
    (hguard : s.is_refreshing = false)
    (hv : is_cache_valid { s with access_count := s.access_count + 1 } now
      false fm = false) :
    read_destinations s now false fm (Except.ok recs) bg q false
      = ⟨{ build_indexes
            { s with
              access_count := s.access_count + 1
              miss_count := s.miss_count + 1
              is_refreshing := true
              data := some recs } with
           last_refresh_time := now
           last_modified_time := fm
           is_refreshing := false },
         Except.ok (runQuery recs
           (build_indexes
             { s with
               access_count := s.access_count + 1
               miss_count := s.miss_count + 1
               is_refreshing := true
               data := some recs }).idx q),
         true, false⟩ := by
  unfold read_destinations
  dsimp only
  rw [hv]
  rw [refresh_cache_ok_eq _ _ _ _
    (show ({ s with
      access_count := s.access_count + 1
      miss_count := s.miss_count + 1 } : CacheState).is_refreshing = false
      from hguard)]
  rfl

lemma read_hit_state (s : CacheState) (now fm : Nat)
    (recs : List Destination) (rr : Except String (List Destination))
    (bg : Bool) (q : QueryParams)
    (hv : is_cache_valid { s with access_count := s.access_count + 1 } now
      false fm = true)
    (hdata : s.data = some recs) :
    read_destinations s now false fm rr bg q false
      = ⟨{ s with
           access_count := s.access_count + 1
           hit_count := s.hit_count + 1 },
         Except.ok (runQuery recs s.idx q), false,
         bg && decide (CACHE_TTL * 4 < (now - s.last_refresh_time) * 5)⟩ := by
  unfold read_destinations
  dsimp only
  rw [hv]
  rw [if_neg (by simp)]
  rw [hdata]

/-- C9: two consecutive reads without force-refresh, with no intervening
store write (same store contents and modification time) and elapsed time
within the TTL: if the first call misses and rebuilds, the second call finds
the cache valid, counts a hit (and not a miss), and performs no rebuild —
snapshot and refresh time are untouched. -/
theorem spec_C9_second_read_hits (s : CacheState) (now1 now2 fm : Nat)
    (recs : List Destination) (bg : Bool) (q : QueryParams)
    (o1 o2 : ReadOutcome)
    (hguard : s.is_refreshing = false)
    (hinvalid : is_cache_valid s now1 false fm = false)
    (httl : now2 - now1 ≤ CACHE_TTL)
    (ho1 : o1 = read_destinations s now1 false fm (Except.ok recs) bg q false)
    (ho2 : o2 = read_destinations o1.state now2 false fm (Except.ok recs) bg q
      false) :
    o1.didRebuild = true ∧
    is_cache_valid o1.state now2 false fm = true ∧
    o2.didRebuild = false ∧
    o2.state.hit_count = o1.state.hit_count + 1 ∧
    o2.state.miss_count = o1.state.miss_count ∧
    o2.state.data = o1.state.data ∧
    o2.state.last_refresh_time = o1.state.last_refresh_time := by
  subst ho1
  subst ho2
  have hv1 : is_cache_valid { s with access_count := s.access_count + 1 } now1
      false fm = false := hinvalid
  rw [read_miss_state s now1 fm recs bg q hguard hv1]
  have hv2 : is_cache_valid
      { { build_indexes
            { s with
              access_count := s.access_count + 1
              miss_count := s.miss_count + 1
              is_refreshing := true
              data := some recs } with
           last_refresh_time := now1
           last_modified_time := fm
           is_refreshing := false } with
        access_count :=
          ({ build_indexes
              { s with
                access_count := s.access_count + 1
                miss_count := s.miss_count + 1
                is_refreshing := true
                data := some recs } with
             last_refresh_time := now1
             last_modified_time := fm
             is_refreshing := false } : CacheState).access_count + 1 } now2
      false fm = true := by
    show (if CACHE_TTL < now2 - now1 then false
      else if !false && decide (fm < fm) then false
      else (some recs).isSome) = true
    rw [if_neg (by omega), if_neg (by simp)]
    rfl
  have hv2' : is_cache_valid
      ({ build_indexes
          { s with
            access_count := s.access_count + 1
            miss_count := s.miss_count + 1
            is_refreshing := true
            data := some recs } with
         last_refresh_time := now1
         last_modified_time := fm
         is_refreshing := false } : CacheState) now2 false fm = true := hv2
  rw [read_hit_state _ now2 fm recs (Except.ok recs) bg q hv2 rfl]
  exact ⟨rfl, hv2', rfl, rfl, rfl, rfl, rfl⟩

/-- Witness for C9: fresh cache read twice at times 100 and 110 against an
unchanged store. -/
theorem spec_C9_second_read_hits_witness :
    initialCache.is_refreshing = false ∧
    is_cache_valid initialCache 100 false 50 = false ∧
    110 - 100 ≤ CACHE_TTL ∧
    ((read_destinations initialCache 100 false 50 (Except.ok []) false
        defaultQuery false).didRebuild = true ∧
      is_cache_valid statsScenario1 110 false 50 = true ∧
      (read_destinations statsScenario1 110 false 50 (Except.ok []) false
        defaultQuery false).didRebuild = false ∧
      (read_destinations statsScenario1 110 false 50 (Except.ok []) false
        defaultQuery false).state.hit_count = statsScenario1.hit_count + 1 ∧
      (read_destinations statsScenario1 110 false 50 (Except.ok []) false
        defaultQuery false).state.miss_count = statsScenario1.miss_count ∧
      (read_destinations statsScenario1 110 false 50 (Except.ok []) false
        defaultQuery false).state.data = statsScenario1.data ∧
      (read_destinations statsScenario1 110 false 50 (Except.ok []) false
        defaultQuery false).state.last_refresh_time
        = statsScenario1.last_refresh_time) :=
  ⟨rfl, by decide, by decide,
    spec_C9_second_read_hits initialCache 100 110 50 [] false defaultQuery
      _ _ rfl (by decide) (by decide) rfl rfl⟩

/-- C10: a successful PUT replaces exactly the first record carrying the
requested id in the sequence it persists; the replacement is built by copying
that record and overwriting only the fields present in the payload —
`destination_id` and every absent field keep their previous values, and every
other position of the persisted sequence is unchanged. -/
theorem spec_C10_update_frame (ds : List Destination) (id : Nat)
    (u : DestinationUpdate) (l : List Destination) (d' : Destination)
    (h : updateLoop id u ds = some (l, d')) :
    ∃ i, i < ds.length ∧
      (ds.getD i dflt).destination_id = id ∧
      (∀ j, j < i → (ds.getD j dflt).destination_id ≠ id) ∧
      d' = applyUpdate (ds.getD i dflt) u ∧
      l = ds.set i d' ∧
      (∀ j, j ≠ i → l.getD j dflt = ds.getD j dflt) ∧
      d'.destination_id = (ds.getD i dflt).destination_id ∧
      (u.name = none → d'.name = (ds.getD i dflt).name) ∧
      (u.location = none → d'.location = (ds.getD i dflt).location) ∧
      (u.description = none → d'.description = (ds.getD i dflt).description) ∧
      (u.price_range = none → d'.price_range = (ds.getD i dflt).price_range) ∧
      (u.availability = none → d'.availability = (ds.getD i dflt).availability) := by
  induction ds generalizing l d' with
  | nil => cases h
  | cons d tl ih =>
    unfold updateLoop at h
    by_cases hd : d.destination_id = id
    · rw [if_pos hd] at h
      obtain ⟨rfl, rfl⟩ : l = applyUpdate d u :: tl ∧ d' = applyUpdate d u := by
        cases h
        exact ⟨rfl, rfl⟩
      refine ⟨0, by simp, by simpa using hd, by omega, rfl, rfl, ?_, rfl,
        ?_, ?_, ?_, ?_, ?_⟩
      · intro j hj
        cases j with
        | zero => exact absurd rfl hj
        | succ j' => simp [ List.getD_cons_succ]
      · intro hu
        show (applyUpdate d u).name = d.name
        unfold applyUpdate
        rw [hu]
        rfl
      · intro hu
        show (applyUpdate d u).location = d.location
        unfold applyUpdate
        rw [hu]
        rfl
      · intro hu
        show (applyUpdate d u).description = d.description
        unfold applyUpdate
        rw [hu]
        rfl
      · intro hu
        show (applyUpdate d u).price_range = d.price_range
        unfold applyUpdate
        rw [hu]
        rfl
      · intro hu
        show (applyUpdate d u).availability = d.availability
        unfold applyUpdate
        rw [hu]
        rfl
    · rw [if_neg hd] at h
      cases hL : updateLoop id u tl with
      | none =>
        rw [hL] at h
        cases h
      | some p =>
        obtain ⟨l', dd⟩ := p
        rw [hL] at h
        obtain ⟨rfl, rfl⟩ : l = d :: l' ∧ d' = dd := by
          cases h
          exact ⟨rfl, rfl⟩
        obtain ⟨i, hi, hid, hfirst, hd', hl', hframe, hkid, hn, hlo, hde,
          hpr, hav⟩ := ih l' d' hL
        subst hl'
        refine ⟨i + 1, by simpa using hi, by simpa using hid, ?_,
          by simpa using hd', rfl, ?_, by simpa using hkid,
          by simpa using hn, by simpa using hlo, by simpa using hde,
          by simpa using hpr, by simpa using hav⟩
        · intro j hj
          cases j with
          | zero => simpa using hd
          | succ j' =>
            rw [ List.getD_cons_succ]
            exact hfirst j' (by omega)
        · intro j hj
          cases j with
          | zero => simp [ List.getD_cons_zero]
          | succ j' =>
            rw [ List.getD_cons_succ, List.getD_cons_succ]
            exact hframe j' (by omega)

/-- Witness for C10: updating only the name of the second record. -/
theorem spec_C10_update_frame_witness :
    updateLoop 2 updPayload [updDestA, updDestB]
      = some ([updDestA, updDestBNew], updDestBNew) ∧
    (∃ i, i < ([updDestA, updDestB] : List Destination).length ∧
      (([updDestA, updDestB] : List Destination).getD i dflt).destination_id = 2 ∧
      (∀ j, j < i →
        (([updDestA, updDestB] : List Destination).getD j dflt).destination_id
          ≠ 2) ∧
      updDestBNew
        = applyUpdate (([updDestA, updDestB] : List Destination).getD i dflt)
            updPayload ∧
      ([updDestA, updDestBNew] : List Destination)
        = ([updDestA, updDestB] : List Destination).set i updDestBNew ∧
      (∀ j, j ≠ i →
        ([updDestA, updDestBNew] : List Destination).getD j dflt
          = ([updDestA, updDestB] : List Destination).getD j dflt) ∧
      updDestBNew.destination_id
        = (([updDestA, updDestB] : List Destination).getD i dflt).destination_id ∧
      (updPayload.name = none → updDestBNew.name
        = (([updDestA, updDestB] : List Destination).getD i dflt).name) ∧
      (updPayload.location = none → updDestBNew.location
        = (([updDestA, updDestB] : List Destination).getD i dflt).location) ∧
      (updPayload.description = none → updDestBNew.description
        = (([updDestA, updDestB] : List Destination).getD i dflt).description) ∧
      (updPayload.price_range = none → updDestBNew.price_range
        = (([updDestA, updDestB] : List Destination).getD i dflt).price_range) ∧
      (updPayload.availability = none → updDestBNew.availability
        = (([updDestA, updDestB] : List Destination).getD i dflt).availability)) :=
  ⟨by decide,
    spec_C10_update_frame [updDestA, updDestB] 2 updPayload
      [updDestA, updDestBNew] updDestBNew (by decide)⟩

/-- C1 is violated by the code: on a store of 101 records, a successful POST
persists only 101 records — the 100 survivors of the limit-100 read page plus
the new one — and the stored record whose name sorts last (id 100) is
silently dropped from the persisted sequence, although it was not the
mutation's target. -/
theorem spec_C1_create_drops_record :
    bigStore.length = 101 ∧
    mkStored 100 ∈ bigStore ∧
    isOkB (create_destination initialCache 0 false 0 (Except.ok bigStore)
      newDest).2 = true ∧
    (persistedOf (create_destination initialCache 0 false 0
      (Except.ok bigStore) newDest).2).length = 101 ∧
    mkStored 100 ∉ persistedOf (create_destination initialCache 0 false 0
      (Except.ok bigStore) newDest).2 := by
  refine ⟨by decide, by decide, by decide, by decide, by decide⟩

/-- C3 is violated by the code: on a store of 101 records, requesting id 100
(whose record's name sorts last, beyond the limit-100 page the handler scans)
returns the not-found error although the record is stored. -/
theorem spec_C3_get_misses_stored_record :
    (mkStored 100).destination_id = 100 ∧
    mkStored 100 ∈ bigStore ∧
    errOf (get_destination initialCache 0 false 0 (Except.ok bigStore) 100).2
      = some (ApiError.notFound 100
          "Verify the destination ID or use GET /destinations/") := by
  refine ⟨rfl, by decide, by decide⟩

end TravelBackend
